import Mathlib

/-!
Verification development for the chunked-upload ingestion core of the
resource_hub repository (`backend/server/Resources`): session state machine,
chunk store, assembler with streaming SHA-256, promotion to a durable
`ResourceFile` record, and the page-counting cascade.

Bytes are modelled as `Nat` values, byte sequences as `List Nat`, the
filesystem chunk directory as an association list `chunk index ↦ contents`,
and the database/blob store as explicit record lists threaded through each
operation.
-/

set_option maxRecDepth 10000

namespace ResourceHub

/-! ## SHA-256 (embedding of `hashlib.sha256` used by `services.assemble_file`) -/

/-- Truncate to a 32-bit word. -/
def w32 (x : Nat) : Nat := x % 4294967296

/-- 32-bit modular addition. -/
def add32 (a b : Nat) : Nat := w32 (a + b)

/-- Right rotation of a 32-bit word by `n` bits. -/
def rotr32 (n x : Nat) : Nat :=
  w32 ((x >>> n) ||| ((x % (1 <<< n)) <<< (32 - n)))

/-- Bitwise complement within 32 bits. -/
def not32 (x : Nat) : Nat := 4294967295 ^^^ x

def ch32 (e f g : Nat) : Nat := (e &&& f) ^^^ (not32 e &&& g)

def maj32 (a b c : Nat) : Nat := (a &&& b) ^^^ (a &&& c) ^^^ (b &&& c)

def bigSigma0 (x : Nat) : Nat := rotr32 2 x ^^^ rotr32 13 x ^^^ rotr32 22 x

def bigSigma1 (x : Nat) : Nat := rotr32 6 x ^^^ rotr32 11 x ^^^ rotr32 25 x

def smallSigma0 (x : Nat) : Nat := rotr32 7 x ^^^ rotr32 18 x ^^^ (x >>> 3)

def smallSigma1 (x : Nat) : Nat := rotr32 17 x ^^^ rotr32 19 x ^^^ (x >>> 10)

/-- The 64 SHA-256 round constants. -/
def K256 : List Nat :=
  [1116352408, 1899447441, 3049323471, 3921009573, 961987163,
   1508970993, 2453635748, 2870763221, 3624381080, 310598401,
   607225278, 1426881987, 1925078388, 2162078206, 2614888103,
   3248222580, 3835390401, 4022224774, 264347078, 604807628,
   770255983, 1249150122, 1555081692, 1996064986, 2554220882,
   2821834349, 2952996808, 3210313671, 3336571891, 3584528711,
   113926993, 338241895, 666307205, 773529912, 1294757372,
   1396182291, 1695183700, 1986661051, 2177026350, 2456956037,
   2730485921, 2820302411, 3259730800, 3345764771, 3516065817,
   3600352804, 4094571909, 275423344, 430227734, 506948616,
   659060556, 883997877, 958139571, 1322822218, 1537002063,
   1747873779, 1955562222, 2024104815, 2227730452, 2361852424,
   2428436474, 2756734187, 3204031479, 3329325298]

/-- The SHA-256 initial hash value. -/
def H256 : List Nat :=
  [1779033703, 3144134277, 1013904242, 2773480762,
   1359893119, 2600822924, 528734635, 1541459225]

/-- Big-endian byte representation of `n` in `k` bytes. -/
def beBytes : Nat → Nat → List Nat
  | 0, _ => []
  | k + 1, n => beBytes k (n / 256) ++ [n % 256]

/-- SHA-256 message padding: append `0x80`, zeros up to 56 mod 64, and the
64-bit big-endian bit length. -/
def sha256pad (msg : List Nat) : List Nat :=
  let L := msg.length
  let z := (55 + 64 - (L % 64)) % 64
  msg ++ (128 :: List.replicate z 0) ++ beBytes 8 (8 * L)

/-- Group a byte list into 32-bit big-endian words. -/
def toWords : List Nat → List Nat
  | b0 :: b1 :: b2 :: b3 :: rest =>
      ((((b0 % 256) * 256 + b1 % 256) * 256 + b2 % 256) * 256 + b3 % 256) :: toWords rest
  | _ => []

/-- Split a byte list into 64-byte blocks (fuel-based structural recursion so
that the definition reduces inside the kernel). -/
def chunks64Fuel : Nat → List Nat → List (List Nat)
  | 0, _ => []
  | _, [] => []
  | fuel + 1, x :: xs => ((x :: xs).take 64) :: chunks64Fuel fuel (xs.drop 63)

/-- Split a byte list into 64-byte blocks. -/
def chunks64 (l : List Nat) : List (List Nat) := chunks64Fuel l.length l

/-- Extend the 16 message-schedule words to 64. -/
def extendW (w : List Nat) : List Nat :=
  (List.range 48).foldl
    (fun acc _ =>
      let n := acc.length
      let t := add32
        (add32 (smallSigma1 (acc.getD (n - 2) 0)) (acc.getD (n - 7) 0))
        (add32 (smallSigma0 (acc.getD (n - 15) 0)) (acc.getD (n - 16) 0))
      acc ++ [t]) w

/-- One SHA-256 compression round. -/
def sha256Round (st : List Nat) (k w : Nat) : List Nat :=
  match st with
  | [a, b, c, d, e, f, g, h] =>
      let t1 := add32 (add32 (add32 h (bigSigma1 e)) (add32 (ch32 e f g) k)) w
      let t2 := add32 (bigSigma0 a) (maj32 a b c)
      [add32 t1 t2, a, b, c, add32 d t1, e, f, g]
  | other => other

/-- Process one 64-byte block. -/
def sha256Block (h : List Nat) (block : List Nat) : List Nat :=
  let w := extendW (toWords block)
  let st := (K256.zip w).foldl (fun s kw => sha256Round s kw.1 kw.2) h
  (h.zip st).map (fun p => add32 p.1 p.2)

/-- SHA-256 of a byte sequence, as eight 32-bit words. -/
def sha256Words (msg : List Nat) : List Nat :=
  (chunks64 (sha256pad msg)).foldl sha256Block H256

def hexDigit (n : Nat) : Char :=
  if n < 10 then Char.ofNat (48 + n) else Char.ofNat (87 + n % 16)

def hexOfWordAux : Nat → Nat → List Char
  | 0, _ => []
  | k + 1, n => hexOfWordAux k (n / 16) ++ [hexDigit (n % 16)]

/-- Lowercase hexadecimal rendering of one 32-bit word. -/
def hexOfWord (n : Nat) : String := String.mk (hexOfWordAux 8 n)

/-- Embeds `hashlib.sha256(msg).hexdigest()`: lowercase hex digest of a byte
sequence. -/
def sha256hex (msg : List Nat) : String :=
  String.join ((sha256Words msg).map hexOfWord)

/-! ## Data model (`Resources/models.py`)

`UploadSession` keeps the declared metadata, the chunk counter and status.  The
session's temp directory (`MEDIA_ROOT/tmp/<uuid>/`) is modelled by the two
fields `chunkFiles` (the `chunk_<i>.part` files, an association list from
index to contents, most recent write first) and `assembledFile` (the
`assembled.bin` artifact produced by `assemble_file`). -/

inductive SessionStatus where
  | initiated
  | uploading
  | completed
  | aborted
deriving DecidableEq, Repr

structure Session where
  filename : String
  mimeType : Option String
  size : Nat
  totalChunks : Nat
  uploadedChunks : Nat
  chunkFiles : List (Nat × List Nat)
  assembledFile : Option (List Nat)
  status : SessionStatus
deriving DecidableEq, Repr

/-- Writing `chunk_<i>.part`: full overwrite semantics. -/
def fsWrite (fs : List (Nat × List Nat)) (i : Nat) (b : List Nat) :
    List (Nat × List Nat) :=
  (i, b) :: fs.filter (fun p => p.1 != i)

/-- Reading `chunk_<i>.part` from the session's temp directory, `none` when
the file does not exist. -/
def fsLookup (fs : List (Nat × List Nat)) (i : Nat) : Option (List Nat) :=
  (fs.find? (fun p => p.1 == i)).map (fun p => p.2)

/-- The error taxonomy surfaced by the upload views and services.  The view
layer maps service-level exceptions (`FileNotFoundError`, `ValueError`, …) to
HTTP responses; here we keep their identities. -/
inductive UploadError where
  | notFound
  | stateError
  | validationError
  | incompleteUpload
  | missingChunk (idx : Nat)
  | integrityError
  | storageError
deriving DecidableEq, Repr

/-- The durable `ResourceFile` record as persisted by promotion.  Mirrors the
model fields set by `promote_session_to_resource_file`; note the model has no
page-count field. -/
structure ResourceFileRec where
  name : String
  size : Nat
  mimeType : Option String
  sha256 : Option String
  isVerified : Bool
deriving DecidableEq, Repr

/-- Durable storage and the metadata store: blob contents written via
`rf.file.save` and the persisted `ResourceFile` rows. -/
structure Store where
  blobs : List (List Nat)
  records : List ResourceFileRec
deriving DecidableEq, Repr

/-- The concrete column names of the `ResourceFile` Django model
(`Resources/models.py`). -/
def resourceFileModelFields : List String :=
  ["id", "resource", "owner", "file", "file_url", "file_id",
   "name", "size", "mime_type", "sha256", "is_verified", "created_at"]

/-- Embeds `Model.save(update_fields=...)`: Django raises a `ValueError` when a
requested field is not a concrete model field; otherwise the listed fields of
the row are updated.  Setting `rf.pages = n` in the views only creates a
plain Python instance attribute (the model has no `pages` column), so the
updated row equals the old row. -/
def djangoUpdateRecord (st : Store) (oldRec newRec : ResourceFileRec)
    (fields : List String) : Except String Store :=
  if fields.all (fun f => resourceFileModelFields.contains f) then
    .ok { st with records := st.records.map (fun r => if r == oldRec then newRec else r) }
  else
    .error "update_fields did not match any model fields"

/-! ## Upload Session Manager (`Resources/views.py`, `Resources/services.py`) -/

/-- Embeds `UPLOAD_ALLOWED_MIME` default from `services.py`. -/
def DEFAULT_ALLOWED_MIME : List String :=
  ["application/pdf",
   "application/vnd.ms-powerpoint",
   "application/vnd.openxmlformats-officedocument.presentationml.presentation",
   "application/msword",
   "application/vnd.openxmlformats-officedocument.wordprocessingml.document"]

/-- Embeds `UPLOAD_MAX_BYTES` default: 50 MB. -/
def MAX_FILE_SIZE : Nat := 50 * 1024 * 1024

/-- Embeds `services.ensure_allowed`: size cap and MIME allow-list (a missing or
blank MIME is allowed through, matching the Python truthiness test). -/
def ensure_allowed (mime : Option String) (size : Nat) : Except UploadError Unit :=
  if MAX_FILE_SIZE < size then .error .validationError
  else
    match mime with
    | some m =>
        if m != "" && !(DEFAULT_ALLOWED_MIME.contains m) then .error .validationError
        else .ok ()
    | none => .ok ()

/-- Embeds `UploadInitiateAPIView.post`: serializer bounds (`size ≥ 1`, provided
`chunkSize ≥ 1`), `ensure_allowed`, default chunk size 5 MB,
`total_chunks = ceil(size / chunk_size)` (exact for sizes within the cap),
and creation of the session with `status=STATUS_UPLOADING`. -/
def initiate (filename : String) (mimeType : Option String) (size : Nat)
    (chunkSize : Option Nat) : Except UploadError Session :=
  if size < 1 then .error .validationError
  else if (match chunkSize with | some c => c < 1 | none => false : Bool) then .error .validationError
  else
    match ensure_allowed mimeType size with
    | .error e => .error e
    | .ok _ =>
        let c := chunkSize.getD (5 * 1024 * 1024)
        .ok { filename := filename
              mimeType := mimeType
              size := size
              totalChunks := (size + c - 1) / c
              uploadedChunks := 0
              chunkFiles := []
              assembledFile := none
              status := .uploading }

/-- Embeds `services.write_chunk`: save the chunk bytes under
`tmp/<session>/chunk_<idx>.part` (overwriting any previous contents). -/
def write_chunk (s : Session) (idx : Nat) (bytes : List Nat) : Session :=
  { s with chunkFiles := fsWrite s.chunkFiles idx bytes }

/-- Embeds `UploadChunkAPIView.post`: session lookup, state gate
(status ∈ {uploading, initiated}), `totalChunks` claim check, index range
check, then the chunk write and the clamped counter increment.  `none`
represents an unknown session id.  A failing call returns the error and, the
view having returned before `write_chunk`, the caller's session and temp
directory are untouched. -/
def uploadChunk (s? : Option Session) (idx totalClaimed : Nat) (bytes : List Nat) :
    Except UploadError Session :=
  match s? with
  | none => .error .notFound
  | some s =>
      if totalClaimed < 1 then .error .validationError
      else if s.status != .uploading && s.status != .initiated then .error .stateError
      else if totalClaimed != s.totalChunks then .error .validationError
      else if s.totalChunks ≤ idx then .error .validationError
      else
        .ok { write_chunk s idx bytes with
              uploadedChunks := min (s.uploadedChunks + 1) s.totalChunks }

/-- Embeds `UploadSession.abort` (`models.py`): remove the temp directory
best-effort and transition to `aborted` unconditionally. -/
def abort (s : Session) : Session :=
  { s with chunkFiles := [], assembledFile := none, status := .aborted }

/-! ## Assembler (`services.assemble_file`)

The loop reads `chunk_0.part … chunk_{n-1}.part` in index order; each chunk's
bytes are appended to `assembled.bin` and fed to the same `sha256.update`
call (the 1 MB read buffering concatenates back to the chunk's contents, so
we account it per chunk).  `out` is the bytes written to `assembled.bin` so
far and `ctx` the bytes accumulated by the hash object. -/

structure AsmState where
  out : List Nat
  ctx : List Nat
deriving DecidableEq, Repr

/-- The per-index loop of `assemble_file`.  A missing `chunk_<i>.part` raises
`FileNotFoundError` (`missingChunk i`), carrying out the partially written
`assembled.bin` contents at that point. -/
def assembleAux (files : List (Nat × List Nat)) :
    List Nat → AsmState → Except (UploadError × AsmState) AsmState
  | [], st => .ok st
  | i :: rest, st =>
      match fsLookup files i with
      | none => .error (.missingChunk i, st)
      | some b => assembleAux files rest { out := st.out ++ b, ctx := st.ctx ++ b }

/-- Embeds `services.assemble_file`: concatenate all chunks in index order while
hashing, then compare the byte count of `assembled.bin` with the declared
session size (`ValueError` = `integrityError` on mismatch).  On success the
assembled bytes and the hex checksum are returned; on failure the error is
returned together with the `assembled.bin` contents left on disk. -/
def assemble_file (s : Session) : Except (UploadError × List Nat) (List Nat × String) :=
  match assembleAux s.chunkFiles (List.range s.totalChunks) { out := [], ctx := [] } with
  | .error (e, st) => .error (e, st.out)
  | .ok st =>
      if st.out.length != s.size then .error (.integrityError, st.out)
      else .ok (st.out, sha256hex st.ctx)

/-! ## Integrity & Promotion (`services.promote_session_to_resource_file`)

The function runs under `@transaction.atomic`: the database writes (the row
inserted by `rf.file.save(..., save=True)` plus the later updates) commit or
roll back together, while the blob written to file storage is not
transactional.  `metaSaveFails` injects a metadata-store failure at the
`rf.save()` call that follows the blob write. -/

def promote_session_to_resource_file (s : Session) (metaSaveFails : Bool)
    (st : Store) : Except UploadError ResourceFileRec × Store × Session :=
  match assemble_file s with
  | .error (e, out) =>
      (.error e, st, { s with assembledFile := some out })
  | .ok (bytes, hex) =>
      let rf : ResourceFileRec :=
        { name := s.filename, size := s.size, mimeType := s.mimeType,
          sha256 := some hex, isVerified := false }
      if metaSaveFails then
        -- `rf.file.save` wrote the blob and inserted the row; the failing
        -- `rf.save()` aborts the transaction, rolling the row back.  The
        -- blob and the temp directory (with `assembled.bin`) remain.
        (.error .storageError, { st with blobs := bytes :: st.blobs },
         { s with assembledFile := some bytes })
      else
        (.ok rf,
         { blobs := bytes :: st.blobs, records := rf :: st.records },
         { s with chunkFiles := [], assembledFile := none, status := .completed })

/-! ## Page/Slide Counter Cascade (`views.py` helpers)

The optional libraries and the external `soffice` converter are modelled by
an environment of capability flags and primitive outcomes; `Except Unit`
encodes a raised exception.  Helpers with their own `try/except` blocks
absorb those exceptions exactly where the source does. -/

instance {ε : Type u} {α : Type v} [DecidableEq ε] [DecidableEq α] :
    DecidableEq (Except ε α) := fun x y =>
  match x, y with
  | .error a, .error b => decidable_of_iff (a = b) (by simp)
  | .ok a, .ok b => decidable_of_iff (a = b) (by simp)
  | .error _, .ok _ => .isFalse (fun h => by cases h)
  | .ok _, .error _ => .isFalse (fun h => by cases h)

structure CountEnv where
  hasPypdf : Bool
  hasPptx : Bool
  hasPil : Bool
  sofficeAvailable : Bool
  /-- Embeds `_ensure_local_file_from_field`: the local path produced, or an
  exception escaping into the body of `count_pages_for_filefield`. -/
  ensureLocal : Except Unit String
  /-- Whether `TemporaryDirectory()` succeeds; it raising would also escape to the outer handler. -/
  tmpdirOk : Bool
  /-- Outcome of `PdfReader` + `len(reader.pages)` on the original file. -/
  pdfRead : Except Unit Nat
  /-- Outcome of `PdfReader` on the `soffice`-converted PDF. -/
  convertedPdfRead : Except Unit Nat
  /-- Outcome of `Presentation(path)` + slide count. -/
  pptxRead : Except Unit Nat
  /-- Outcome of `Image.open` + `n_frames`. -/
  imageRead : Except Unit Nat
  /-- Whether the `soffice` run leaves the expected output PDF (a raising
  `subprocess.run` is caught inside `_convert_to_pdf_via_soffice`). -/
  convertOk : Bool
deriving DecidableEq, Repr

inductive PdfSrc where
  | orig
  | converted
deriving DecidableEq, Repr

/-- Embeds `_count_pdf_pages_local`: `None` without pypdf; internal read errors are
caught and give `None`. -/
def countPdfPagesLocal (env : CountEnv) (src : PdfSrc) : Option Nat :=
  if !env.hasPypdf then none
  else
    match (match src with | .orig => env.pdfRead | .converted => env.convertedPdfRead) with
    | .error _ => none
    | .ok n => some n

/-- Embeds `_count_pptx_slides_local`: `None` without python-pptx; errors caught. -/
def countPptxSlidesLocal (env : CountEnv) : Option Nat :=
  if !env.hasPptx then none
  else match env.pptxRead with
    | .error _ => none
    | .ok n => some n

/-- Embeds `_count_image_frames_local`: always yields a count — 1 without Pillow, 1
when inspection fails, `n_frames` when greater than 1, else 1. -/
def countImageFramesLocal (env : CountEnv) : Nat :=
  if !env.hasPil then 1
  else match env.imageRead with
    | .error _ => 1
    | .ok n => if 1 < n then n else 1

/-- Embeds `_convert_to_pdf_via_soffice`: `None` when `soffice` is unavailable or
the conversion leaves no output; its own exceptions are caught inside. -/
def convertToPdfViaSoffice (env : CountEnv) : Option Unit :=
  if !env.sofficeAvailable then none
  else if env.convertOk then some () else none

/-- Python `str.lower()` (character-wise so that it evaluates inside the
kernel). -/
def strLower (s : String) : String := String.mk (s.toList.map Char.toLower)

/-- Python `str.endswith(suffix)`. -/
def strEndsWith (s suffix : String) : Bool :=
  List.isSuffixOf suffix.toList s.toList

/-- Python `str.startswith(prefix)`. -/
def strStartsWith (s pre : String) : Bool :=
  List.isPrefixOf pre.toList s.toList

/-- Python substring test `needle in hay`. -/
def strContains (hay needle : String) : Bool :=
  hay.toList.tails.any (fun t => needle.toList.isPrefixOf t)

/-- The image-extension test of stage 4 of the cascade. -/
def imageGuard (mt lp : String) : Bool :=
  strStartsWith mt "image/" ||
    [".jpg", ".jpeg", ".png", ".tiff", ".tif", ".gif", ".bmp", ".webp"].any
      (fun e => strEndsWith lp e)

/-- Stage 5 of `count_pages_for_filefield`: convert anything else to PDF via
`soffice` and count; falling off the end of the `try` yields `None`. -/
def countStage5 (env : CountEnv) : Except Unit (Option Nat) :=
  if !env.tmpdirOk then .error ()
  else
    match convertToPdfViaSoffice env with
    | none => .ok none
    | some _ => .ok (countPdfPagesLocal env .converted)

/-- Stage 4 of `count_pages_for_filefield`: images report their frame count
directly. -/
def countStage4 (env : CountEnv) (mt lp : String) : Except Unit (Option Nat) :=
  if imageGuard mt lp then .ok (some (countImageFramesLocal env))
  else countStage5 env

/-- Stage 3 of `count_pages_for_filefield` (word-processor formats): convert
to PDF via `soffice` and count; with no converter or no countable output the
branch returns `None` directly (the source's explicit `return None`), without
consulting the remaining stages.  (The source's second
`endswith((".doc",))` test is subsumed by the first tuple.) -/
def countStage3 (env : CountEnv) (mt lp : String) : Except Unit (Option Nat) :=
  if strContains mt "word" ||
      [".docx", ".doc", ".odt", ".rtf"].any (fun e => strEndsWith lp e) then
    if !env.tmpdirOk then .error ()
    else
      match convertToPdfViaSoffice env with
      | none => .ok none
      | some _ =>
          match countPdfPagesLocal env .converted with
          | some p => .ok (some p)
          | none => .ok none
  else countStage4 env mt lp

/-- The body of `count_pages_for_filefield` inside its outer `try`: the
ordered strategy chain over the lower-cased MIME string and local path, with
`Except.error` marking an exception escaping to the outer handler. -/
def countPagesBody (env : CountEnv) (mimeType : Option String) :
    Except Unit (Option Nat) :=
  match env.ensureLocal with
  | .error _ => .error ()
  | .ok localPath =>
      let mt := strLower (mimeType.getD "")
      let lp := strLower localPath
      match (if strContains mt "pdf" || strEndsWith lp ".pdf"
             then countPdfPagesLocal env .orig else none) with
      | some p => .ok (some p)
      | none =>
          if strContains mt "presentation" || strContains mt "powerpoint" ||
              strEndsWith lp ".pptx" || strEndsWith lp ".ppt" then
            match (if strEndsWith lp ".pptx" && env.hasPptx
                   then countPptxSlidesLocal env else none) with
            | some p => .ok (some p)
            | none =>
                if !env.tmpdirOk then .error ()
                else
                  match (match convertToPdfViaSoffice env with
                         | none => none
                         | some _ => countPdfPagesLocal env .converted) with
                  | some p => .ok (some p)
                  | none => countStage3 env mt lp
          else countStage3 env mt lp

/-- Embeds `count_pages_for_filefield`: the outer `except Exception` absorbs any
escaping failure, falling through to the final `return None`. -/
def count_pages_for_filefield (env : CountEnv) (mimeType : Option String) :
    Option Nat :=
  match countPagesBody env mimeType with
  | .error _ => none
  | .ok r => r

/-! ## Complete (`UploadCompleteAPIView.post`) -/

/-- The serializer fields of `ResourceFileUploadSerializer`
(`Resources/serializers.py`): the keys of a successful upload response. -/
def uploadSerializerFields : List String :=
  ["fileId", "fileUrl", "name", "size", "mimeType", "sha256"]

/-- The keys of the Complete/SimpleUpload success payload: the serializer
fields plus the `success` flag added by the view. -/
def completeResponseKeys : List String := uploadSerializerFields ++ ["success"]

/-- The response data of a successful Complete, as produced by
`ResourceFileUploadSerializer` from the promoted record. -/
structure CompleteResponse where
  name : String
  size : Nat
  mimeType : Option String
  sha256 : Option String
deriving DecidableEq, Repr

/-- Embeds `UploadCompleteAPIView.post`: session lookup, the advisory
`uploaded_chunks == total_chunks` gate, promotion, then the best-effort page
count whose persistence attempt (`rf.save(update_fields=["pages"])`) is
swallowed by the surrounding `except`.  Returns the response (or error), the
resulting store and the resulting session. -/
def completeUpload (s? : Option Session) (metaSaveFails : Bool) (env : CountEnv)
    (st : Store) : Except UploadError CompleteResponse × Store × Option Session :=
  match s? with
  | none => (.error .notFound, st, none)
  | some s =>
      if s.uploadedChunks != s.totalChunks then (.error .incompleteUpload, st, some s)
      else
        match promote_session_to_resource_file s metaSaveFails st with
        | (.error e, st1, s1) => (.error e, st1, some s1)
        | (.ok rf, st1, s1) =>
            let st2 :=
              match count_pages_for_filefield env rf.mimeType with
              | none => st1
              | some _ =>
                  match djangoUpdateRecord st1 rf rf ["pages"] with
                  | .ok st3 => st3
                  | .error _ => st1
            (.ok { name := rf.name, size := rf.size,
                   mimeType := rf.mimeType, sha256 := rf.sha256 },
             st2, some s1)

/-- Folding a sequence of accepted `UploadChunk` calls over a session: each
call claims the session's own `total_chunks` and submits `data i` for chunk
index `i`. -/
def applyWrites (s : Session) (order : List Nat) (data : Nat → List Nat) :
    Except UploadError Session :=
  order.foldlM (fun acc i => uploadChunk (some acc) i acc.totalChunks (data i)) s

/-! ## Concrete instances used to exercise the model -/

/-- An environment in which no counting library and no converter is
available. -/
def demoEnv : CountEnv :=
  { hasPypdf := false, hasPptx := false, hasPil := false,
    sofficeAvailable := false, ensureLocal := .ok "file.bin", tmpdirOk := true,
    pdfRead := .error (), convertedPdfRead := .error (), pptxRead := .error (),
    imageRead := .error (), convertOk := false }

/-- An environment whose local-file materialisation raises. -/
def raisingEnv : CountEnv := { demoEnv with ensureLocal := .error () }

/-- An environment in which pypdf is available and reports a 10-page PDF. -/
def pdfEnv : CountEnv :=
  { demoEnv with hasPypdf := true, pdfRead := .ok 10, ensureLocal := .ok "x.pdf" }

def emptyStore : Store := { blobs := [], records := [] }

/-- A concrete session over the declared metadata of `notes.pdf`. -/
def mkDemoSession (total size counter : Nat) (files : List (Nat × List Nat))
    (st : SessionStatus) : Session :=
  { filename := "notes.pdf", mimeType := some "application/pdf", size := size,
    totalChunks := total, uploadedChunks := counter, chunkFiles := files,
    assembledFile := none, status := st }

/-! ## Helper lemmas -/

theorem find?_filter_ne (fs : List (Nat × List Nat)) (i j : Nat) (hne : j ≠ i) :
    (fs.filter (fun p => p.1 != i)).find? (fun p => p.1 == j) =
      fs.find? (fun p => p.1 == j) := by
  induction fs with
  | nil => rfl
  | cons q rest ih =>
      by_cases hqi : q.1 = i
      · have h1 : (q.1 != i) = false := by simp [hqi]
        have h2 : (q.1 == j) = false := by
          simp [hqi]
          omega
        simp [List.filter_cons, List.find?_cons, h1, h2, ih]
      · have h1 : (q.1 != i) = true := by simp [hqi]
        by_cases hqj : q.1 = j
        · have h2 : (q.1 == j) = true := by simp [hqj]
          simp [List.filter_cons, List.find?_cons, h1, h2]
        · have h2 : (q.1 == j) = false := by simp [hqj]
          simp [List.filter_cons, List.find?_cons, h1, h2, ih]

theorem fsLookup_fsWrite (fs : List (Nat × List Nat)) (i j : Nat) (b : List Nat) :
    fsLookup (fsWrite fs i b) j = if j = i then some b else fsLookup fs j := by
  by_cases h : j = i
  · simp [fsLookup, fsWrite, List.find?, h]
  · have : (i == j) = false := by
      simp
      omega
    simp [fsLookup, fsWrite, List.find?, h, this, find?_filter_ne fs i j h]

theorem uploadChunk_ok_of (s : Session) (i : Nat) (b : List Nat)
    (hst : s.status = .uploading) (hi : i < s.totalChunks) :
    uploadChunk (some s) i s.totalChunks b =
      .ok { s with chunkFiles := fsWrite s.chunkFiles i b,
                   uploadedChunks := min (s.uploadedChunks + 1) s.totalChunks } := by
  have h1 : ¬ (s.totalChunks < 1) := by omega
  have h4 : ¬ (s.totalChunks ≤ i) := by omega
  simp [uploadChunk, write_chunk, h1, h4, hst]

theorem applyWrites_ok (order : List Nat) (s : Session) (data : Nat → List Nat)
    (hst : s.status = .uploading) (hu : s.uploadedChunks ≤ s.totalChunks)
    (hall : ∀ i ∈ order, i < s.totalChunks) :
    ∃ s1, applyWrites s order data = .ok s1 ∧
      s1.filename = s.filename ∧ s1.mimeType = s.mimeType ∧ s1.size = s.size ∧
      s1.totalChunks = s.totalChunks ∧ s1.status = .uploading ∧
      s1.assembledFile = s.assembledFile ∧
      s1.uploadedChunks = min (s.uploadedChunks + order.length) s.totalChunks ∧
      ∀ j, fsLookup s1.chunkFiles j =
        if j ∈ order then some (data j) else fsLookup s.chunkFiles j := by
  induction order generalizing s with
  | nil =>
      refine ⟨s, rfl, rfl, rfl, rfl, rfl, hst, rfl, ?_, ?_⟩
      · simp only [List.length_nil, Nat.add_zero]
        omega
      · intro j
        simp
  | cons i rest ih =>
      have hi : i < s.totalChunks := hall i (List.mem_cons_self i rest)
      set s2 : Session :=
        { s with chunkFiles := fsWrite s.chunkFiles i (data i),
                 uploadedChunks := min (s.uploadedChunks + 1) s.totalChunks } with hs2
      have hstep : uploadChunk (some s) i s.totalChunks (data i) = .ok s2 :=
        uploadChunk_ok_of s i (data i) hst hi
      have hrest : ∀ j ∈ rest, j < s2.totalChunks := by
        intro j hj
        exact hall j (List.mem_cons_of_mem i hj)
      have hu2 : s2.uploadedChunks ≤ s2.totalChunks := by
        simp only [hs2]
        omega
      obtain ⟨s1, happ, hfn, hmt, hsz, htc, hsts, haf, huc, hlook⟩ :=
        ih s2 hst hu2 hrest
      refine ⟨s1, ?_, ?_, ?_, ?_, ?_, hsts, haf, ?_, ?_⟩
      · simp [applyWrites, List.foldlM] at happ ⊢
        rw [hstep]
        exact happ
      · exact hfn
      · exact hmt
      · exact hsz
      · exact htc
      · rw [huc]
        simp [hs2]
        omega
      · intro j
        rw [hlook j]
        by_cases hjr : j ∈ rest
        · simp [hjr]
        · by_cases hji : j = i
          · simp [hjr, hji, fsLookup_fsWrite]
          · simp [hjr, hji, fsLookup_fsWrite, hs2]

theorem assembleAux_ok (files : List (Nat × List Nat)) (idxs : List Nat)
    (data : Nat → List Nat) (st : AsmState)
    (h : ∀ i ∈ idxs, fsLookup files i = some (data i)) :
    assembleAux files idxs st =
      .ok { out := st.out ++ (idxs.map data).flatten,
            ctx := st.ctx ++ (idxs.map data).flatten } := by
  induction idxs generalizing st with
  | nil => simp [assembleAux]
  | cons i rest ih =>
      have hi : fsLookup files i = some (data i) := h i (List.mem_cons_self i rest)
      have hrest : ∀ j ∈ rest, fsLookup files j = some (data j) := by
        intro j hj
        exact h j (List.mem_cons_of_mem i hj)
      simp [assembleAux, hi, ih _ hrest]

theorem assembleAux_missing (files : List (Nat × List Nat)) (idxs : List Nat)
    (st : AsmState) (i : Nat) (hi : i ∈ idxs) (hmiss : fsLookup files i = none) :
    ∃ j st1, assembleAux files idxs st = .error (.missingChunk j, st1) ∧
      j ∈ idxs ∧ fsLookup files j = none := by
  induction idxs generalizing st with
  | nil => cases hi
  | cons k rest ih =>
      match hk : fsLookup files k with
      | none =>
          exact ⟨k, st, by simp [assembleAux, hk], List.mem_cons_self k rest, hk⟩
      | some b =>
          have hir : i ∈ rest := by
            rcases List.mem_cons.mp hi with h | h
            · rw [h] at hmiss
              rw [hmiss] at hk
              cases hk
            · exact h
          obtain ⟨j, st1, heq, hjm, hjn⟩ :=
            ih { out := st.out ++ b, ctx := st.ctx ++ b } hir
          exact ⟨j, st1, by simp [assembleAux, hk, heq],
                 List.mem_cons_of_mem k hjm, hjn⟩

theorem djangoUpdateRecord_pages (st : Store) (r1 r2 : ResourceFileRec) :
    djangoUpdateRecord st r1 r2 ["pages"] =
      .error "update_fields did not match any model fields" := by
  have h : (["pages"].all (fun f => resourceFileModelFields.contains f)) = false := by
    decide
  unfold djangoUpdateRecord
  rw [h]
  simp

/-- The page-counting environment never influences the outcome of Complete:
the count is consulted only by a best-effort persistence attempt that always
fails (the `ResourceFile` model has no `pages` field) and is swallowed. -/
theorem completeUpload_env_irrelevant (s? : Option Session) (mf : Bool)
    (env env2 : CountEnv) (st : Store) :
    completeUpload s? mf env st = completeUpload s? mf env2 st := by
  match s? with
  | none => rfl
  | some s =>
      simp only [completeUpload]
      by_cases hc : (s.uploadedChunks != s.totalChunks) = true
      · simp [hc]
      · simp only [Bool.not_eq_true] at hc
        simp only [hc]
        match promote_session_to_resource_file s mf st with
        | (.error e, st1, s1) => rfl
        | (.ok rf, st1, s1) =>
            simp only [djangoUpdateRecord_pages]
            match count_pages_for_filefield env rf.mimeType,
                  count_pages_for_filefield env2 rf.mimeType with
            | none, none => rfl
            | none, some _ => rfl
            | some _, none => rfl
            | some _, some _ => rfl

/-- The session produced by `promote_session_to_resource_file` keeps the
counter, the chunk total and the declared metadata of its input. -/
theorem promote_preserves_counters (s : Session) (mf : Bool) (st : Store) :
    ((promote_session_to_resource_file s mf st).2.2).uploadedChunks = s.uploadedChunks ∧
    ((promote_session_to_resource_file s mf st).2.2).totalChunks = s.totalChunks := by
  unfold promote_session_to_resource_file
  match assemble_file s with
  | .error (e, out) => exact ⟨rfl, rfl⟩
  | .ok (bytes, hex) =>
      by_cases hmf : mf
      · simp [hmf]
      · simp [hmf]

/-! ## Claims -/

/-- Claim C5 counterexample: a successful `Initiate` persists the session
with status `uploading`, not `initiated` (the view passes
`status=UploadSession.STATUS_UPLOADING` at creation), and a successful
`WriteChunk` on a session in status `initiated` leaves it in `initiated`
(the view never updates `status`), contradicting the claimed
`Initiated → Uploading` transition on first write. -/
theorem c5_counterexample :
    (initiate "notes.pdf" (some "application/pdf") 10 (some 5)).toOption.map
        (fun s => s.status) = some .uploading ∧
    SessionStatus.uploading ≠ SessionStatus.initiated ∧
    (uploadChunk (some (mkDemoSession 2 10 0 [] .initiated)) 0 2 [9]).toOption.map
        (fun s => s.status) = some .initiated := by
  decide

/-- Claim C5 (amended): every session created by a successful Initiate is
persisted with status `uploading`, and a successful WriteChunk never changes
the session status (there is no `Initiated → Uploading` transition). -/
theorem c5_initiate_status_uploading :
    (∀ fn mt sz cs s, initiate fn mt sz cs = .ok s → s.status = .uploading) ∧
    (∀ (s s1 : Session) idx total b,
      uploadChunk (some s) idx total b = .ok s1 → s1.status = s.status) := by
  constructor
  · intro fn mt sz cs s h
    unfold initiate at h
    split at h
    · cases h
    · split at h
      · cases h
      · revert h
        match ensure_allowed mt sz with
        | .error e => intro h; cases h
        | .ok _ =>
            intro h
            cases h
            rfl
  · intro s s1 idx total b h
    simp only [uploadChunk] at h
    split at h
    · cases h
    · split at h
      · cases h
      · split at h
        · cases h
        · split at h
          · cases h
          · injection h with h2
            rw [← h2]
            simp [write_chunk]

/-- Claim C5 witness: the amended statement at concrete inputs — the session
produced by a concrete successful Initiate has status `uploading`, and a
successful WriteChunk on a concrete `initiated` session keeps its status. -/
theorem c5_witness :
    Session.status (mkDemoSession 2 10 0 [] .uploading) = SessionStatus.uploading ∧
    Session.status (mkDemoSession 2 10 1 [(0, [9])] .initiated) =
      Session.status (mkDemoSession 2 10 0 [] .initiated) := by
  constructor
  · exact c5_initiate_status_uploading.1 "notes.pdf" (some "application/pdf") 10
      (some 5) (mkDemoSession 2 10 0 [] .uploading) (by decide)
  · exact c5_initiate_status_uploading.2 (mkDemoSession 2 10 0 [] .initiated)
      (mkDemoSession 2 10 1 [(0, [9])] .initiated) 0 2 [9] (by decide)

/-- Claim C8: WriteChunk fails with `notFound` for an unknown session id,
with `stateError` when the session status is outside {initiated, uploading}
(in particular after `abort`), and with `validationError` when the claimed
total differs from the session's `total_chunks` or the index is out of
`[0, total_chunks)` (the serializer additionally rejects a non-positive
claimed total).  Each failing call returns before `write_chunk` and before
the counter update, so no chunk file is written and no session field
changes — the result carries the error alone, no session. -/
theorem c8_writeChunk_failure_modes (idx totalClaimed : Nat) (bytes : List Nat)
    (htc : 1 ≤ totalClaimed) :
    (uploadChunk none idx totalClaimed bytes = .error .notFound) ∧
    (∀ s : Session, s.status ≠ .uploading → s.status ≠ .initiated →
      uploadChunk (some s) idx totalClaimed bytes = .error .stateError) ∧
    (∀ s : Session,
      uploadChunk (some (abort s)) idx totalClaimed bytes = .error .stateError) ∧
    (∀ s : Session, s.status = .uploading ∨ s.status = .initiated →
      totalClaimed ≠ s.totalChunks →
      uploadChunk (some s) idx totalClaimed bytes = .error .validationError) ∧
    (∀ s : Session, s.status = .uploading ∨ s.status = .initiated →
      totalClaimed = s.totalChunks → s.totalChunks ≤ idx →
      uploadChunk (some s) idx totalClaimed bytes = .error .validationError) := by
  have hnl : ¬ (totalClaimed < 1) := by omega
  refine ⟨rfl, ?_, ?_, ?_, ?_⟩
  · intro s h1 h2
    simp [uploadChunk, hnl, h1, h2]
  · intro s
    have h1 : (abort s).status ≠ .uploading := by simp [abort]
    have h2 : (abort s).status ≠ .initiated := by simp [abort]
    simp [uploadChunk, hnl, h1, h2]
  · intro s hs hne
    rcases hs with h | h
    · simp [uploadChunk, hnl, h, hne]
    · simp [uploadChunk, hnl, h, hne]
  · intro s hs heq hle
    have hni : ¬ (idx < s.totalChunks) := by omega
    rcases hs with h | h
    · simp [uploadChunk, hnl, h, heq, hle]
    · simp [uploadChunk, hnl, h, heq, hle]

/-- Claim C8 witness: the failure modes at concrete inputs (unknown session;
aborted session; total mismatch; index out of range on the Scenario C shape
`WriteChunk(index=5, totalChunks=2)`). -/
theorem c8_witness :
    uploadChunk (some (abort (mkDemoSession 2 10 1 [(0, [1])] .uploading))) 0 2 [5]
        = .error .stateError ∧
    uploadChunk (some (mkDemoSession 2 10 0 [] .uploading)) 0 3 [5]
        = .error .validationError ∧
    uploadChunk (some (mkDemoSession 2 10 0 [] .uploading)) 5 2 [5]
        = .error .validationError ∧
    uploadChunk none 0 2 [5] = .error .notFound := by
  refine ⟨?_, ?_, ?_, ?_⟩
  · exact (c8_writeChunk_failure_modes 0 2 [5] (by decide)).2.2.1
      (mkDemoSession 2 10 1 [(0, [1])] .uploading)
  · exact (c8_writeChunk_failure_modes 0 3 [5] (by decide)).2.2.2.1
      (mkDemoSession 2 10 0 [] .uploading) (Or.inl (by decide)) (by decide)
  · exact (c8_writeChunk_failure_modes 5 2 [5] (by decide)).2.2.2.2
      (mkDemoSession 2 10 0 [] .uploading) (Or.inl (by decide)) (by decide) (by decide)
  · exact (c8_writeChunk_failure_modes 0 2 [5] (by decide)).1

/-- Claim C9: `0 ≤ uploaded_chunks ≤ total_chunks` holds for every session a
successful Initiate creates and is preserved by WriteChunk (which sets the
counter to `min (uploaded_chunks + 1) total_chunks`), by Complete (which
never touches the counter, whichever branch it takes) and by Abort.  The
lower bound is definitional (`uploadedChunks : Nat`). -/
theorem c9_counter_invariant :
    (∀ fn mt sz cs s, initiate fn mt sz cs = .ok s →
      s.uploadedChunks ≤ s.totalChunks) ∧
    (∀ (s s1 : Session) idx total bytes,
      s.uploadedChunks ≤ s.totalChunks →
      uploadChunk (some s) idx total bytes = .ok s1 →
      s1.uploadedChunks = min (s.uploadedChunks + 1) s.totalChunks ∧
      s1.totalChunks = s.totalChunks ∧
      s1.uploadedChunks ≤ s1.totalChunks) ∧
    (∀ (s s1 : Session) mf env st,
      s.uploadedChunks ≤ s.totalChunks →
      (completeUpload (some s) mf env st).2.2 = some s1 →
      s1.uploadedChunks = s.uploadedChunks ∧ s1.totalChunks = s.totalChunks ∧
      s1.uploadedChunks ≤ s1.totalChunks) ∧
    (∀ s : Session, s.uploadedChunks ≤ s.totalChunks →
      (abort s).uploadedChunks ≤ (abort s).totalChunks) := by
  refine ⟨?_, ?_, ?_, ?_⟩
  · intro fn mt sz cs s h
    unfold initiate at h
    split at h
    · cases h
    · split at h
      · cases h
      · revert h
        match ensure_allowed mt sz with
        | .error e => intro h; cases h
        | .ok _ =>
            intro h
            cases h
            exact Nat.zero_le _
  · intro s s1 idx total bytes hu h
    simp only [uploadChunk] at h
    split at h
    · cases h
    · split at h
      · cases h
      · split at h
        · cases h
        · split at h
          · cases h
          · injection h with h2
            rw [← h2]
            simp [write_chunk]
  · intro s s1 mf env st hu h
    have hp := promote_preserves_counters s mf st
    simp only [completeUpload] at h
    split at h
    · injection h with h2
      rw [← h2]
      exact ⟨rfl, rfl, hu⟩
    · revert h
      match hpr : promote_session_to_resource_file s mf st with
      | (.error e, st1, s2) =>
          intro h
          injection h with h2
          rw [hpr] at hp
          simp at hp
          rw [← h2]
          exact ⟨hp.1, hp.2, by omega⟩
      | (.ok rf, st1, s2) =>
          intro h
          simp only at h
          injection h with h2
          rw [hpr] at hp
          simp at hp
          rw [← h2]
          exact ⟨hp.1, hp.2, by omega⟩
  · intro s hu
    simpa [abort] using hu

/-- Claim C9 witness: the invariant clauses at concrete inputs — a concrete
Initiate result, a concrete accepted WriteChunk, a concrete Complete. -/
theorem c9_witness :
    Session.uploadedChunks (mkDemoSession 2 10 0 [] .uploading) ≤
      Session.totalChunks (mkDemoSession 2 10 0 [] .uploading) ∧
    Session.uploadedChunks (mkDemoSession 2 10 1 [(0, [9])] .uploading) =
      min (0 + 1) 2 ∧
    Session.uploadedChunks (abort (mkDemoSession 2 10 2 [(0, [9])] .uploading)) ≤
      Session.totalChunks (abort (mkDemoSession 2 10 2 [(0, [9])] .uploading)) := by
  refine ⟨?_, ?_, ?_⟩
  · exact c9_counter_invariant.1 "notes.pdf" (some "application/pdf") 10 (some 5)
      (mkDemoSession 2 10 0 [] .uploading) (by decide)
  · exact (c9_counter_invariant.2.1 (mkDemoSession 2 10 0 [] .uploading)
      (mkDemoSession 2 10 1 [(0, [9])] .uploading) 0 2 [9] (by decide) (by decide)).1
  · exact c9_counter_invariant.2.2.2 (mkDemoSession 2 10 2 [(0, [9])] .uploading)
      (by decide)

/-- Claim C10: `uploaded_chunks` counts accepted WriteChunk calls (clamped at
`total_chunks`), not distinct indices — the view increments optimistically
without checking for an existing chunk file.  Indices never written keep no
chunk file, so after submitting index 0 twice on a 2-chunk session the
counter equals `total_chunks` while `chunk_1.part` is absent. -/
theorem c10_counter_counts_calls (s0 : Session) (order : List Nat)
    (data : Nat → List Nat) (hst : s0.status = .uploading)
    (hu : s0.uploadedChunks = 0) (hall : ∀ i ∈ order, i < s0.totalChunks) :
    (∃ s1, applyWrites s0 order data = .ok s1 ∧
      s1.uploadedChunks = min order.length s0.totalChunks ∧
      s1.totalChunks = s0.totalChunks ∧
      ∀ j, j ∉ order → fsLookup s1.chunkFiles j = fsLookup s0.chunkFiles j) ∧
    (applyWrites (mkDemoSession 2 2 0 [] .uploading) [0, 0] (fun _ => [7]) =
        .ok (mkDemoSession 2 2 2 [(0, [7])] .uploading) ∧
      Session.uploadedChunks (mkDemoSession 2 2 2 [(0, [7])] .uploading) =
        Session.totalChunks (mkDemoSession 2 2 2 [(0, [7])] .uploading) ∧
      fsLookup (Session.chunkFiles (mkDemoSession 2 2 2 [(0, [7])] .uploading)) 1 =
        none) := by
  constructor
  · obtain ⟨s1, happ, _, _, _, htc, _, _, huc, hlook⟩ :=
      applyWrites_ok order s0 data hst (by omega) hall
    refine ⟨s1, happ, ?_, htc, ?_⟩
    · rw [huc, hu]
      simp
    · intro j hj
      rw [hlook j]
      simp [hj]
  · refine ⟨by decide, by decide, by decide⟩

/-- Claim C10 witness: the general clause applied to the double-submission
of index 0 on a fresh 2-chunk session. -/
theorem c10_witness :
    ∃ s1, applyWrites (mkDemoSession 2 2 0 [] .uploading) [0, 0] (fun _ => [7]) =
        .ok s1 ∧
      s1.uploadedChunks = min 2 (Session.totalChunks (mkDemoSession 2 2 0 [] .uploading)) ∧
      s1.totalChunks = Session.totalChunks (mkDemoSession 2 2 0 [] .uploading) ∧
      ∀ j, j ∉ [0, 0] → fsLookup s1.chunkFiles j =
        fsLookup (Session.chunkFiles (mkDemoSession 2 2 0 [] .uploading)) j := by
  have h := (c10_counter_counts_calls (mkDemoSession 2 2 0 [] .uploading) [0, 0]
    (fun _ => [7]) (by decide) (by decide) (by decide)).1
  simpa using h

/-- Claim C1: whenever any expected chunk file in `[0, total_chunks)` is
absent on disk, Complete fails — with `incompleteUpload` when the advisory
counter gate already rejects, and otherwise with the assembler's
`missingChunk` for an absent index found by probing the filesystem
(`os.path.exists` per index), whatever the counter claims.  The session
status, counter and chunk files are unchanged, and nothing reaches the
stores; consequently Complete hands a session to the assembler's success
path only when every expected chunk file is present. -/
theorem c1_complete_requires_chunk_files (s : Session) (mf : Bool)
    (env : CountEnv) (st : Store) (i : Nat) (hi : i < s.totalChunks)
    (hmiss : fsLookup s.chunkFiles i = none) :
    ∃ e, (completeUpload (some s) mf env st).1 = .error e ∧
      (e = .incompleteUpload ∨
        ∃ j, j < s.totalChunks ∧ fsLookup s.chunkFiles j = none ∧
          e = .missingChunk j) ∧
      (∃ s1, (completeUpload (some s) mf env st).2.2 = some s1 ∧
        s1.status = s.status ∧ s1.uploadedChunks = s.uploadedChunks ∧
        s1.chunkFiles = s.chunkFiles) ∧
      (completeUpload (some s) mf env st).2.1 = st := by
  by_cases hc : (s.uploadedChunks != s.totalChunks) = true
  · have hcomp : completeUpload (some s) mf env st = (.error .incompleteUpload, st, some s) := by
      simp only [completeUpload, hc]
      simp
    refine ⟨.incompleteUpload, ?_, Or.inl rfl, ⟨s, ?_, rfl, rfl, rfl⟩, ?_⟩ <;>
      simp [hcomp]
  · obtain ⟨j, st1, heq, hjm, hjn⟩ :=
      assembleAux_missing s.chunkFiles (List.range s.totalChunks)
        { out := [], ctx := [] } i (List.mem_range.mpr hi) hmiss
    have hasm : assemble_file s = .error (.missingChunk j, st1.out) := by
      unfold assemble_file
      rw [heq]
    have hprom : promote_session_to_resource_file s mf st =
        (.error (.missingChunk j), st, { s with assembledFile := some st1.out }) := by
      unfold promote_session_to_resource_file
      rw [hasm]
    have hcomp : completeUpload (some s) mf env st =
        (.error (.missingChunk j), st, some { s with assembledFile := some st1.out }) := by
      simp only [completeUpload, hc]
      rw [hprom]
      rfl
    refine ⟨.missingChunk j, ?_,
      Or.inr ⟨j, List.mem_range.mp hjm, hjn, rfl⟩,
      ⟨{ s with assembledFile := some st1.out }, ?_, rfl, rfl, rfl⟩, ?_⟩ <;>
      simp [hcomp]

/-- Claim C1 witness: a session whose counter claims completion
(`uploaded_chunks = total_chunks = 2`) but whose `chunk_1.part` is absent is
rejected with an error, its status, counter and chunk files intact. -/
theorem c1_witness :
    ∃ e, (completeUpload (some (mkDemoSession 2 10 2 [(0, [1])] .uploading))
        false demoEnv emptyStore).1 = .error e ∧
      (e = .incompleteUpload ∨
        ∃ j, j < 2 ∧
          fsLookup (Session.chunkFiles (mkDemoSession 2 10 2 [(0, [1])] .uploading)) j
            = none ∧ e = .missingChunk j) ∧
      (∃ s1, (completeUpload (some (mkDemoSession 2 10 2 [(0, [1])] .uploading))
          false demoEnv emptyStore).2.2 = some s1 ∧
        s1.status = .uploading ∧ s1.uploadedChunks = 2 ∧
        s1.chunkFiles = [(0, [1])]) ∧
      (completeUpload (some (mkDemoSession 2 10 2 [(0, [1])] .uploading))
        false demoEnv emptyStore).2.1 = emptyStore := by
  have h := c1_complete_requires_chunk_files (mkDemoSession 2 10 2 [(0, [1])] .uploading)
    false demoEnv emptyStore 1 (by decide) (by decide)
  simpa [mkDemoSession] using h

/-- Claim C2: for any submission order that is a permutation of
`[0, total_chunks)` over a fresh session, Complete succeeds (when the
declared size matches), the blob persisted to durable storage is exactly the
concatenation of the chunk contents in ascending index order, and the
checksum in the response is the SHA-256 hex digest of exactly that
concatenation. -/
theorem c2_order_independent_assembly (s0 : Session) (order : List Nat)
    (data : Nat → List Nat) (env : CountEnv) (st : Store)
    (hst : s0.status = .uploading) (hu : s0.uploadedChunks = 0)
    (hperm : order.Perm (List.range s0.totalChunks))
    (hsize : ((List.range s0.totalChunks).map data).flatten.length = s0.size) :
    ∃ s1, applyWrites s0 order data = .ok s1 ∧
      completeUpload (some s1) false env st =
        (.ok { name := s0.filename, size := s0.size, mimeType := s0.mimeType,
               sha256 := some (sha256hex
                 (((List.range s0.totalChunks).map data).flatten)) },
         { blobs := ((List.range s0.totalChunks).map data).flatten :: st.blobs,
           records :=
             { name := s0.filename, size := s0.size, mimeType := s0.mimeType,
               sha256 := some (sha256hex
                 (((List.range s0.totalChunks).map data).flatten)),
               isVerified := false } :: st.records },
         some { s1 with chunkFiles := [], assembledFile := none,
                        status := .completed }) := by
  have hall : ∀ i ∈ order, i < s0.totalChunks := by
    intro i hio
    exact List.mem_range.mp (hperm.mem_iff.mp hio)
  obtain ⟨s1, happ, hfn, hmt, hsz, htc, hsts, haf, huc, hlook⟩ :=
    applyWrites_ok order s0 data hst (by omega) hall
  have hlen : order.length = s0.totalChunks := by
    have h := hperm.length_eq
    simpa using h
  have hcount : s1.uploadedChunks = s1.totalChunks := by
    rw [huc, hu, htc, hlen]
    simp
  have hlooks : ∀ i ∈ List.range s1.totalChunks,
      fsLookup s1.chunkFiles i = some (data i) := by
    intro i hir
    rw [htc] at hir
    rw [hlook i]
    simp [hperm.mem_iff.mpr hir]
  have hasm : assembleAux s1.chunkFiles (List.range s1.totalChunks)
      { out := [], ctx := [] } =
      .ok { out := ((List.range s1.totalChunks).map data).flatten,
            ctx := ((List.range s1.totalChunks).map data).flatten } := by
    have h := assembleAux_ok s1.chunkFiles (List.range s1.totalChunks) data
      { out := [], ctx := [] } hlooks
    simpa using h
  have hflatlen : (((List.range s1.totalChunks).map data).flatten.length
      != s1.size) = false := by
    rw [htc, hsz]
    simp [hsize]
  have hfile : assemble_file s1 =
      .ok (((List.range s1.totalChunks).map data).flatten,
           sha256hex (((List.range s1.totalChunks).map data).flatten)) := by
    unfold assemble_file
    rw [hasm]
    simp only [hflatlen]
    rfl
  have hprom : promote_session_to_resource_file s1 false st =
      (.ok { name := s1.filename, size := s1.size, mimeType := s1.mimeType,
             sha256 := some (sha256hex
               (((List.range s1.totalChunks).map data).flatten)),
             isVerified := false },
       { blobs := ((List.range s1.totalChunks).map data).flatten :: st.blobs,
         records :=
           { name := s1.filename, size := s1.size, mimeType := s1.mimeType,
             sha256 := some (sha256hex
               (((List.range s1.totalChunks).map data).flatten)),
             isVerified := false } :: st.records },
       { s1 with chunkFiles := [], assembledFile := none,
                 status := .completed }) := by
    unfold promote_session_to_resource_file
    rw [hfile]
    rfl
  have hne : (s1.uploadedChunks != s1.totalChunks) = false := by
    simp [hcount]
  refine ⟨s1, happ, ?_⟩
  rw [← hfn, ← hmt, ← hsz, ← htc]
  simp only [completeUpload, hne]
  rw [hprom]
  simp only []
  cases hcv : count_pages_for_filefield env s1.mimeType with
  | none => simp [hcv]
  | some p => simp [hcv, djangoUpdateRecord_pages]

/-- Claim C2 witness: the order-independence statement at a concrete 2-chunk
session written in the order `[1, 0]`. -/
theorem c2_witness :
    ∃ s1, applyWrites (mkDemoSession 2 4 0 [] .uploading) [1, 0]
        (fun i => [2 * i, 2 * i + 1]) = .ok s1 ∧
      completeUpload (some s1) false demoEnv emptyStore =
        (.ok { name := "notes.pdf", size := 4,
               mimeType := some "application/pdf",
               sha256 := some (sha256hex
                 (((List.range 2).map (fun i => [2 * i, 2 * i + 1])).flatten)) },
         { blobs := ((List.range 2).map (fun i => [2 * i, 2 * i + 1])).flatten
             :: Store.blobs emptyStore,
           records :=
             { name := "notes.pdf", size := 4,
               mimeType := some "application/pdf",
               sha256 := some (sha256hex
                 (((List.range 2).map (fun i => [2 * i, 2 * i + 1])).flatten)),
               isVerified := false } :: Store.records emptyStore },
         some { s1 with chunkFiles := [], assembledFile := none,
                        status := .completed }) := by
  have h := c2_order_independent_assembly (mkDemoSession 2 4 0 [] .uploading)
    [1, 0] (fun i => [2 * i, 2 * i + 1]) demoEnv emptyStore
    (by decide) (by decide) (by decide) (by decide)
  simpa [mkDemoSession] using h

/-- Claim C3 counterexample: on a fully uploaded one-chunk session whose
metadata write fails after the blob write, the blob `[7, 7]` remains in
durable storage while no `ResourceFile` row exists — the orphaned blob is
not deleted before the error is surfaced, so the persisted state is neither
"record with its blob" nor "neither". -/
theorem c3_counterexample :
    (completeUpload (some (mkDemoSession 1 2 1 [(0, [7, 7])] .uploading)) true
        demoEnv emptyStore).2.1.blobs = [[7, 7]] ∧
    (completeUpload (some (mkDemoSession 1 2 1 [(0, [7, 7])] .uploading)) true
        demoEnv emptyStore).2.1.records = [] ∧
    (completeUpload (some (mkDemoSession 1 2 1 [(0, [7, 7])] .uploading)) true
        demoEnv emptyStore).1 = .error .storageError := by
  decide

/-- Claim C3 (amended): when the metadata write fails after the blob write,
`transaction.atomic` rolls the `ResourceFile` row back (no dangling record)
and the session keeps its status, but the orphaned blob is not deleted — it
stays in durable storage when the error is surfaced. -/
theorem c3_meta_failure_leaves_orphan_blob (s : Session) (env : CountEnv)
    (st : Store) (bytes : List Nat) (hex : String)
    (hc : s.uploadedChunks = s.totalChunks)
    (ha : assemble_file s = .ok (bytes, hex)) :
    completeUpload (some s) true env st =
      (.error .storageError,
       { st with blobs := bytes :: st.blobs },
       some { s with assembledFile := some bytes }) := by
  have hprom : promote_session_to_resource_file s true st =
      (.error .storageError, { st with blobs := bytes :: st.blobs },
       { s with assembledFile := some bytes }) := by
    unfold promote_session_to_resource_file
    rw [ha]
    rfl
  have hne : (s.uploadedChunks != s.totalChunks) = false := by
    simp [hc]
  simp only [completeUpload, hne]
  rw [hprom]
  rfl

/-- Claim C3 witness: the amended statement at the concrete one-chunk
session. -/
theorem c3_witness :
    completeUpload (some (mkDemoSession 1 2 1 [(0, [7, 7])] .uploading)) true
        demoEnv emptyStore =
      (.error .storageError,
       { emptyStore with blobs := [7, 7] :: emptyStore.blobs },
       some { mkDemoSession 1 2 1 [(0, [7, 7])] .uploading with
              assembledFile := some [7, 7] }) :=
  c3_meta_failure_leaves_orphan_blob (mkDemoSession 1 2 1 [(0, [7, 7])] .uploading)
    demoEnv emptyStore [7, 7] (sha256hex [7, 7]) (by decide) (by rfl)

/-- Claim C4 counterexample: a session with every chunk present but 1
assembled byte against a declared size of 5 fails Complete with
`integrityError` and stays `uploading`, but the partial assembled output is
not discarded — `assembled.bin` (contents `[1]`) remains in the session's
temp directory. -/
theorem c4_counterexample :
    (completeUpload (some (mkDemoSession 1 5 1 [(0, [1])] .uploading)) false
        demoEnv emptyStore).1 = .error .integrityError ∧
    (completeUpload (some (mkDemoSession 1 5 1 [(0, [1])] .uploading)) false
        demoEnv emptyStore).2.2.map (fun s1 => s1.status) = some .uploading ∧
    (completeUpload (some (mkDemoSession 1 5 1 [(0, [1])] .uploading)) false
        demoEnv emptyStore).2.2.map (fun s1 => s1.assembledFile) =
      some (some [1]) := by
  decide

/-- Claim C4 (amended): when all chunk files are present but the assembled
byte count differs from the declared size, Complete fails with
`integrityError`, the stores are untouched and the session keeps its status
and counter — but the assembled output remains in the temp directory (as
`assembled.bin`) rather than being discarded. -/
theorem c4_size_mismatch_integrity_error (s : Session) (mf : Bool)
    (env : CountEnv) (st : Store) (ast : AsmState)
    (hc : s.uploadedChunks = s.totalChunks)
    (ha : assembleAux s.chunkFiles (List.range s.totalChunks)
      { out := [], ctx := [] } = .ok ast)
    (hlen : ast.out.length ≠ s.size) :
    completeUpload (some s) mf env st =
      (.error .integrityError, st,
       some { s with assembledFile := some ast.out }) := by
  have hfile : assemble_file s = .error (.integrityError, ast.out) := by
    unfold assemble_file
    rw [ha]
    simp [hlen]
  have hprom : promote_session_to_resource_file s mf st =
      (.error .integrityError, st, { s with assembledFile := some ast.out }) := by
    unfold promote_session_to_resource_file
    rw [hfile]
  have hne : (s.uploadedChunks != s.totalChunks) = false := by
    simp [hc]
  simp only [completeUpload, hne]
  rw [hprom]
  rfl

/-- Claim C4 witness: the amended statement at the concrete mismatching
session (1 assembled byte against declared size 5). -/
theorem c4_witness :
    completeUpload (some (mkDemoSession 1 5 1 [(0, [1])] .uploading)) false
        demoEnv emptyStore =
      (.error .integrityError, emptyStore,
       some { mkDemoSession 1 5 1 [(0, [1])] .uploading with
              assembledFile := some [1] }) :=
  c4_size_mismatch_integrity_error (mkDemoSession 1 5 1 [(0, [1])] .uploading)
    false demoEnv emptyStore { out := [1], ctx := [1] }
    (by decide) (by decide) (by decide)

/-- Claim C6 (code bug): the `ResourceFile` model has no page-count column
and the upload serializer exposes no `pageCount` key, while the views
nevertheless attempt `rf.save(update_fields=["pages"])` — which always
raises and is swallowed.  Even when the cascade determines a page count
(here a 10-page PDF), a successful Complete persists exactly the same state
and returns exactly the same response as when counting yields nothing:
neither the record nor the response carries the count. -/
theorem c6_page_count_never_persisted :
    resourceFileModelFields.contains "pages" = false ∧
    completeResponseKeys.contains "pageCount" = false ∧
    (∀ (st : Store) (r1 r2 : ResourceFileRec),
      djangoUpdateRecord st r1 r2 ["pages"] =
        .error "update_fields did not match any model fields") ∧
    count_pages_for_filefield pdfEnv (some "application/pdf") = some 10 ∧
    completeUpload (some (mkDemoSession 1 2 1 [(0, [7, 7])] .uploading)) false
        pdfEnv emptyStore =
      completeUpload (some (mkDemoSession 1 2 1 [(0, [7, 7])] .uploading)) false
        demoEnv emptyStore := by
  exact ⟨by decide, by decide, djangoUpdateRecord_pages, by decide,
    completeUpload_env_irrelevant _ _ _ _ _⟩

/-- Claim C7: the page-counting function is total — any exception escaping a
cascade stage is absorbed by the outer handler into `None`; with no library,
no converter and a non-image input every stage is exhausted and the result
is `None`; and the environment backing the cascade never influences the
outcome of Complete — ingestion success is never conditioned on counting. -/
theorem c7_counting_never_fails_ingestion :
    (∀ (env : CountEnv) (mime : Option String),
      countPagesBody env mime = .error () →
      count_pages_for_filefield env mime = none) ∧
    (∀ (env : CountEnv) (mime : Option String) (p : String),
      env.hasPypdf = false → env.hasPptx = false →
      env.sofficeAvailable = false → env.tmpdirOk = true →
      env.ensureLocal = .ok p →
      imageGuard (strLower (mime.getD "")) (strLower p) = false →
      count_pages_for_filefield env mime = none) ∧
    (∀ (s? : Option Session) (mf : Bool) (env env2 : CountEnv) (st : Store),
      completeUpload s? mf env st = completeUpload s? mf env2 st) := by
  refine ⟨?_, ?_, completeUpload_env_irrelevant⟩
  · intro env mime h
    unfold count_pages_for_filefield
    rw [h]
  · intro env mime p h1 h2 h3 h4 h5 hg
    have hpdf1 : countPdfPagesLocal env .orig = none := by
      simp [countPdfPagesLocal, h1]
    have hpdf2 : countPdfPagesLocal env .converted = none := by
      simp [countPdfPagesLocal, h1]
    have hconv : convertToPdfViaSoffice env = none := by
      simp [convertToPdfViaSoffice, h3]
    have hs5 : countStage5 env = .ok none := by
      simp [countStage5, h4, hconv]
    have hs4 : countStage4 env (strLower (mime.getD "")) (strLower p) = .ok none := by
      simp [countStage4, hg, hs5]
    have hs3 : countStage3 env (strLower (mime.getD "")) (strLower p) = .ok none := by
      unfold countStage3
      split
      · simp [h4, hconv]
      · exact hs4
    have hpptx : countPptxSlidesLocal env = none := by
      simp [countPptxSlidesLocal, h2]
    have hbody : countPagesBody env mime = .ok none := by
      unfold countPagesBody
      rw [h5]
      dsimp only
      split
      · rename_i p1 heq
        exfalso
        split at heq
        · rw [hpdf1] at heq
          cases heq
        · cases heq
      · split
        · split
          · rename_i p2 heq2
            exfalso
            split at heq2
            · rw [hpptx] at heq2
              cases heq2
            · cases heq2
          · simp [h4, hconv, hs3]
        · exact hs3
    unfold count_pages_for_filefield
    rw [hbody]

/-- Claim C7 witness: a raising local-file materialisation is absorbed into
`None`, and an environment with no counting library and no converter yields
`None` for an unknown binary format, both at concrete inputs. -/
theorem c7_witness :
    count_pages_for_filefield raisingEnv none = none ∧
    count_pages_for_filefield demoEnv (some "application/octet-stream") = none := by
  constructor
  · exact c7_counting_never_fails_ingestion.1 raisingEnv none (by decide)
  · exact c7_counting_never_fails_ingestion.2.1 demoEnv
      (some "application/octet-stream") "file.bin" rfl rfl rfl rfl rfl (by decide)

end ResourceHub
